import Mathlib

/-!
Shallow embedding of the transaction-encoding core of the e_encoder
repository (src/encoding.rs, src/stream_handler.rs, src/main.rs), together
with theorems settling the specification claims about it.

Bytes are modelled as natural numbers below 256 and byte strings as lists
of naturals.  Machine words (Keccak lanes) are naturals reduced modulo 2^64.
-/

/-- Little-endian byte expansion: `toBytesLE k n` is the `k` low-order
bytes of `n`, least significant first. -/
def toBytesLE : Nat → Nat → List Nat
  | 0, _ => []
  | k + 1, n => n % 256 :: toBytesLE k (n / 256)

/-- Big-endian 32-byte word, as the contract ABI serialises a `uint256`. -/
def wordBytes (n : Nat) : List Nat :=
  (toBytesLE 32 n).reverse

/-- Big-endian value of a byte list. -/
def fromBytesBE (bs : List Nat) : Nat :=
  bs.foldl (fun acc b => 256 * acc + b) 0






/-! ## Keccak-256

The repository computes function selectors with `alloy`'s `Keccak256`
hasher.  We model the hash function itself: the Keccak-f[1600]
permutation with rate 1088 (136 bytes), multi-rate padding with domain
byte `0x01`, and a 32-byte digest. Lanes are naturals kept below `2^64`. -/

/-- One step of the degree-8 LFSR that generates the Keccak round
constants (polynomial x^8 + x^6 + x^5 + x^4 + 1). -/
def keccakLfsrStep (r : Nat) : Nat :=
  if r &&& 0x80 = 0 then (r <<< 1) % 256 else ((r <<< 1) ^^^ 0x71) % 256

/-- LFSR state after `t` steps from the initial state 1. -/
def keccakLfsrAt : Nat → Nat
  | 0 => 1
  | t + 1 => keccakLfsrStep (keccakLfsrAt t)

/-- Round constant of round `i`: bit `2^j - 1` is the LFSR output at
step `7 * i + j`, for `j` from 0 to 6. -/
def keccakRCval (i : Nat) : Nat :=
  (List.range 7).foldl
    (fun acc j =>
      if keccakLfsrAt (7 * i + j) &&& 1 = 1 then acc ||| (1 <<< (2 ^ j - 1))
      else acc) 0

/-- The 24 round constants of Keccak-f[1600]. -/
def keccakRC : List Nat :=
  (List.range 24).map keccakRCval

/-- Rotation offsets of the rho step, indexed by `x + 5 * y`: starting
from lane (1, 0), step `t` assigns offset `(t+1)(t+2)/2 mod 64` and
moves to lane `(y, (2x + 3y) mod 5)`; lane (0, 0) keeps offset 0. -/
def keccakRotOff : List Nat :=
  ((List.range 24).foldl
    (fun (p : (Nat × Nat) × List Nat) t =>
      let x := p.1.1
      let y := p.1.2
      ((y, (2 * x + 3 * y) % 5),
        p.2.set (x % 5 + 5 * (y % 5)) ((t + 1) * (t + 2) / 2 % 64)))
    ((1, 0), List.replicate 25 0)).2

/-- 64-bit left rotation on a natural below `2^64`. -/
def rotl64 (x n : Nat) : Nat :=
  ((x <<< (n % 64)) ||| (x >>> (64 - n % 64))) % 2 ^ 64

/-- Lane `(x, y)` of a 25-lane state, stored at index `x + 5 * y`. -/
def lane (a : List Nat) (x y : Nat) : Nat :=
  a.getD (x % 5 + 5 * (y % 5)) 0

/-- Theta step of Keccak-f. -/
def thetaStep (a : List Nat) : List Nat :=
  let c := fun x => lane a x 0 ^^^ lane a x 1 ^^^ lane a x 2 ^^^ lane a x 3 ^^^ lane a x 4
  let d := fun x => c ((x + 4) % 5) ^^^ rotl64 (c ((x + 1) % 5)) 1
  List.ofFn (fun i : Fin 25 => a.getD i.val 0 ^^^ d (i.val % 5))

/-- Combined rho and pi steps: output lane `(x', y')` is the source lane
`((x' + 3 * y') % 5, x')` rotated by its offset. -/
def rhoPiStep (a : List Nat) : List Nat :=
  List.ofFn (fun i : Fin 25 =>
    let xo := i.val % 5
    let yo := i.val / 5
    let xs := (xo + 3 * yo) % 5
    let ys := xo
    rotl64 (lane a xs ys) (keccakRotOff.getD (xs % 5 + 5 * (ys % 5)) 0))

/-- Chi step of Keccak-f. -/
def chiStep (a : List Nat) : List Nat :=
  List.ofFn (fun i : Fin 25 =>
    let x := i.val % 5
    let y := i.val / 5
    lane a x y ^^^ ((lane a (x + 1) y ^^^ (2 ^ 64 - 1)) &&& lane a (x + 2) y))

/-- Iota step: xor the round constant into lane `(0, 0)`. -/
def iotaStep (a : List Nat) (rc : Nat) : List Nat :=
  List.ofFn (fun i : Fin 25 =>
    if i.val = 0 then a.getD 0 0 ^^^ rc else a.getD i.val 0)

/-- One round of Keccak-f[1600]. -/
def keccakRound (a : List Nat) (rc : Nat) : List Nat :=
  iotaStep (chiStep (rhoPiStep (thetaStep a))) rc

/-- The full 24-round Keccak-f[1600] permutation. -/
def keccakF (a : List Nat) : List Nat :=
  keccakRC.foldl keccakRound a

/-- Little-endian value of a byte list (used to load lanes). -/
def fromBytesLE (bs : List Nat) : Nat :=
  bs.foldr (fun b acc => b + 256 * acc) 0

/-- Xor one 136-byte rate block into the first 17 lanes of the state. -/
def xorBlock (st block : List Nat) : List Nat :=
  List.ofFn (fun i : Fin 25 =>
    if i.val < 17 then
      st.getD i.val 0 ^^^ fromBytesLE ((block.drop (8 * i.val)).take 8)
    else st.getD i.val 0)

/-- Absorb `n` rate blocks of the padded message into the state. -/
def keccakAbsorb : Nat → List Nat → List Nat → List Nat
  | 0, _, st => st
  | n + 1, m, st => keccakAbsorb n (m.drop 136) (keccakF (xorBlock st (m.take 136)))

/-- Multi-rate padding with Keccak domain byte `0x01`. -/
def keccakPad (msg : List Nat) : List Nat :=
  let q := 136 - msg.length % 136
  if q = 1 then msg ++ [0x81]
  else msg ++ (0x01 :: List.replicate (q - 2) 0 ++ [0x80])

/-- Keccak-256: absorb the padded message and squeeze the first 32 bytes
(the first four lanes, little-endian). -/
def keccak256 (msg : List Nat) : List Nat :=
  let p := keccakPad msg
  let st := keccakAbsorb (p.length / 136) p (List.replicate 25 0)
  toBytesLE 8 (st.getD 0 0) ++ toBytesLE 8 (st.getD 1 0) ++
    toBytesLE 8 (st.getD 2 0) ++ toBytesLE 8 (st.getD 3 0)


/-- UTF-8 encoding of one code point. -/
def utf8Char (c : Nat) : List Nat :=
  if c < 0x80 then [c]
  else if c < 0x800 then [0xc0 + c / 64, 0x80 + c % 64]
  else if c < 0x10000 then
    [0xe0 + c / 4096, 0x80 + c / 64 % 64, 0x80 + c % 64]
  else
    [0xf0 + c / 262144, 0x80 + c / 4096 % 64, 0x80 + c / 64 % 64, 0x80 + c % 64]

/-- UTF-8 bytes of a string, as Rust's `str::as_bytes` exposes them. -/
def utf8Bytes (s : String) : List Nat :=
  (s.data.map (fun c => utf8Char c.toNat)).flatten

/-- First four bytes of the Keccak-256 hash of the UTF-8 signature text:
the contract-ABI function selector (spec 4.1 `computeSelector`). -/
def computeSelector (s : String) : List Nat :=
  (keccak256 (utf8Bytes s)).take 4


/-! ## Embedding of src/encoding.rs -/

/-- The 32-byte dynamic-data header the code tests for: 31 zero bytes
followed by `0x20` (the Rust `[0u8; 31]` chained with `[32]`). -/
def dynHeader32 : List Nat :=
  List.replicate 31 0 ++ [32]

/-- The strip step inlined in `encode_input` (encoding.rs lines 15-23),
as a standalone operation: remove the leading 32 bytes exactly when the
argument is longer than 32 bytes and starts with `dynHeader32`. -/
def stripDynHeader (a : List Nat) : List Nat :=
  if 32 < a.length ∧ a.take 32 = dynHeader32 then a.drop 32 else a

namespace Encoding

/-- `encode_input` from src/encoding.rs: Keccak-256 the UTF-8 signature,
take the first 4 hash bytes, strip the dynamic-data header from the
encoded arguments when present, and concatenate. -/
def encode_input (selector : String) (encoded_args : List Nat) : List Nat :=
  let selector_bytes := (keccak256 (utf8Bytes selector)).take 4
  let call_data := selector_bytes
  let encoded_args' :=
    if 32 < encoded_args.length ∧ encoded_args.take 32 = dynHeader32 then
      encoded_args.drop 32
    else encoded_args
  call_data ++ encoded_args'

/-- The `Data` struct of the `sol!` block in `create_multitrade_calldata`:
`{address target; uint256 value; bytes callData}`. Addresses and the
value are naturals (an address fits in 160 bits). -/
structure DataS where
  target : Nat
  value : Nat
  callData : List Nat

/-- Zero padding that extends a `bytes` payload of length `n` to a
multiple of 32 bytes, as the contract ABI requires. -/
def zeroPad (n : Nat) : List Nat :=
  List.replicate ((32 - n % 32) % 32) 0

/-- ABI tail encoding of one `Data` struct (a dynamic tuple
`(address, uint256, bytes)`): three head words, the last an offset of 96
to the `bytes` tail, then the `bytes` length, content and padding. -/
def encDataTail (d : DataS) : List Nat :=
  wordBytes d.target ++ wordBytes d.value ++ wordBytes 96 ++
    wordBytes d.callData.length ++ d.callData ++ zeroPad d.callData.length

/-- Offset words for an array of dynamic elements: element `i`'s head is
the byte distance from the start of the element area to its tail. -/
def offsWords : List (List Nat) → Nat → List Nat
  | [], _ => []
  | t :: ts, pos => wordBytes pos ++ offsWords ts (pos + t.length)

/-- ABI encoding of a `Data[]` value: length word, per-element offset
words, then the element tails. -/
def encDataArray (ds : List DataS) : List Nat :=
  let tails := ds.map encDataTail
  wordBytes ds.length ++ offsWords tails (32 * ds.length) ++ tails.flatten

/-- Canonical signature of the gateway function declared in the `sol!`
block. -/
def executeInteractionsSig : String :=
  "executeInteractions((address,uint256,bytes)[],address,uint8)"

/-- `alloy`'s `executeInteractionsCall::abi_encode`: the 4-byte selector
followed by the sequence encoding of `(Data[], address, uint8)` — the
dynamic array head is an offset of 96 past the three head words. -/
def encodeExecuteInteractionsCall (interactions : List DataS)
    (tokenAddress : Nat) (isTest : Nat) : List Nat :=
  computeSelector executeInteractionsSig ++
    (wordBytes 96 ++ wordBytes tokenAddress ++ wordBytes isTest ++
      encDataArray interactions)

/-- `create_multitrade_calldata` from src/encoding.rs: bundle the approve
and swap payloads as two `Data` interactions targeting the token and the
executor, and ABI-encode the `executeInteractions` call with the token
address and mode byte 1. Always returns `Ok`. -/
def create_multitrade_calldata (token_address executor_address : Nat)
    (approve_calldata swap_calldata : List Nat) : Except String (List Nat) :=
  let interactions : List DataS :=
    [{ target := token_address, value := 0, callData := approve_calldata },
     { target := executor_address, value := 0, callData := swap_calldata }]
  Except.ok (encodeExecuteInteractionsCall interactions token_address 1)

end Encoding

/-! ## ABI decoding of the bundle (for the round-trip claim C3)

An honest decoder for calldata of the `executeInteractions` shape: it
follows the offset words it reads, it does not assume the layout. -/

/-- Read the 32-byte big-endian word at byte offset `off`. -/
def readWord (bs : List Nat) (off : Nat) : Nat :=
  fromBytesBE ((bs.drop off).take 32)

/-- Decode one `(address, uint256, bytes)` element whose tail starts at
byte offset `p`: the bytes offset is read and followed. -/
def decodeData (bs : List Nat) (p : Nat) : Nat × Nat × List Nat :=
  let target := readWord bs p
  let value := readWord bs (p + 32)
  let boff := readWord bs (p + 64)
  let blen := readWord bs (p + boff)
  (target, value, (bs.drop (p + boff + 32)).take blen)

/-- Decode the argument area (selector removed) of an
`executeInteractions` call: follow the array offset, require exactly two
elements, follow each element offset. -/
def decodeMultitradeArgs (bs : List Nat) :
    Option (List (Nat × Nat × List Nat) × Nat × Nat) :=
  let aoff := readWord bs 0
  let token := readWord bs 32
  let mode := readWord bs 64
  let n := readWord bs aoff
  if n = 2 then
    let base := aoff + 32
    let o0 := readWord bs base
    let o1 := readWord bs (base + 32)
    some ([decodeData bs (base + o0), decodeData bs (base + o1)], token, mode)
  else none

/-! ## Embedding of src/stream_handler.rs -/

/-- Rust `str::contains` on character lists: `startsWithChars pat l`
holds when `pat` begins `l`. -/
def startsWithChars : List Char → List Char → Bool
  | [], _ => true
  | _ :: _, [] => false
  | c :: cs, d :: ds => c == d && startsWithChars cs ds

/-- Substring test: some suffix of `hay` starts with `needle`. -/
def charsContain (hay needle : List Char) : Bool :=
  match hay with
  | [] => needle.isEmpty
  | _ :: rest => startsWithChars needle hay || charsContain rest needle

/-- Rust's `s.contains(pat)` on strings. -/
def strContains (s pat : String) : Bool :=
  charsContain s.data pat.data

/-- One `Swap` leg as built in `process_swap` and in the `main` event
loop (the float-typed `split` field, always `0.0`, and the opaque
component and protocol-state references carry no information used by any
claim and are omitted). -/
structure SwapLeg where
  token_in : Nat
  token_out : Nat
  estimated_amount_in : Nat
deriving DecidableEq

/-- The `Solution` record of the tycho encoding model, with the fields
the repository sets. -/
structure Solution where
  sender : Nat
  receiver : Nat
  given_token : Nat
  given_amount : Nat
  checked_token : Nat
  exact_out : Bool
  checked_amount : Nat
  swaps : List SwapLeg
deriving DecidableEq

/-- The `EncodedSolution` returned by the external route encoder:
function signature, destination contract, opaque route bytes and the
token count used by the split shape. -/
structure EncodedSolution where
  function_signature : String
  interacting_with : Nat
  swaps : List Nat
  n_tokens : Nat

/-- An argument value of the serialized method tuple: a word-sized
number, an address, a flag, or a dynamic byte string. -/
inductive AbiVal where
  | uintV (n : Nat)
  | addrV (n : Nat)
  | boolV (b : Bool)
  | bytesV (bs : List Nat)
deriving DecidableEq

/-- Whether a value is dynamically encoded. -/
def isDynVal : AbiVal → Bool
  | AbiVal.bytesV _ => true
  | _ => false

/-- The head word of a static value. -/
def valWord : AbiVal → Nat
  | AbiVal.uintV n => n
  | AbiVal.addrV n => n
  | AbiVal.boolV b => if b then 1 else 0
  | AbiVal.bytesV _ => 0

/-- Heads and tails of a value sequence: static values contribute their
word, dynamic values an offset word pointing at their tail. -/
def encValsGo : List AbiVal → Nat → List Nat × List Nat
  | [], _ => ([], [])
  | AbiVal.bytesV bs :: vs, pos =>
    let t := wordBytes bs.length ++ bs ++ Encoding.zeroPad bs.length
    let rest := encValsGo vs (pos + t.length)
    (wordBytes pos ++ rest.1, t ++ rest.2)
  | v :: vs, pos =>
    let rest := encValsGo vs pos
    (wordBytes (valWord v) ++ rest.1, rest.2)

/-- Sequence (parameter-style) ABI encoding of a value list. -/
def abiEncodeSeqVals (vals : List AbiVal) : List Nat :=
  let ht := encValsGo vals (32 * vals.length)
  ht.1 ++ ht.2

/-- `alloy`'s `SolValue::abi_encode` on a tuple: a dynamic tuple is
encoded as a single value, wrapped behind one offset word of 32 — the
header `encode_input` strips again. -/
def abiEncodeVals (vals : List AbiVal) : List Nat :=
  if vals.any isDynVal then wordBytes 32 ++ abiEncodeSeqVals vals
  else abiEncodeSeqVals vals

namespace StreamHandler

/-- `let slippage_tolerance = 5; // 5%` (stream_handler.rs line 45). -/
def slippage_tolerance : Nat := 5

/-- `min_amount_out` of `process_swap` (lines 46-47): integer arithmetic
on arbitrary-precision naturals, `amount_out * (100 - 5) / 100`. -/
def min_amount_out (amount_out : Nat) : Nat :=
  amount_out * (100 - slippage_tolerance) / 100

/-- The `Solution` built by `process_swap` (stream_handler.rs lines
50-70): sender and receiver are the signer address, the checked amount
is the slippage-reduced quote. -/
def processSwapSolution (sender sell_token buy_token amount_in amount_out : Nat) :
    Solution :=
  { sender := sender
    receiver := sender
    given_token := sell_token
    given_amount := amount_in
    checked_token := buy_token
    exact_out := false
    checked_amount := min_amount_out amount_out
    swaps := [{ token_in := sell_token, token_out := buy_token,
                estimated_amount_in := amount_in }] }

/-- The method-argument tuple built by the signature dispatch of
`process_swap` (stream_handler.rs lines 91-135). -/
def method_calldata_tuple (function_signature : String) (route : List Nat)
    (n_tokens : Nat)
    (given_amount given_token checked_token min_out receiver : Nat) :
    Except String (List AbiVal) :=
  if strContains function_signature "singleSwap" then
    Except.ok
      [AbiVal.uintV given_amount, AbiVal.addrV given_token,
       AbiVal.addrV checked_token, AbiVal.uintV min_out,
       AbiVal.boolV false, AbiVal.boolV false, AbiVal.addrV receiver,
       AbiVal.boolV true, AbiVal.bytesV route]
  else if strContains function_signature "sequentialSwap" then
    Except.ok
      [AbiVal.uintV given_amount, AbiVal.addrV given_token,
       AbiVal.addrV checked_token, AbiVal.uintV min_out,
       AbiVal.boolV false, AbiVal.boolV false, AbiVal.addrV receiver,
       AbiVal.boolV true, AbiVal.bytesV route]
  else if strContains function_signature "splitSwap" then
    Except.ok
      [AbiVal.uintV given_amount, AbiVal.addrV given_token,
       AbiVal.addrV checked_token, AbiVal.uintV min_out,
       AbiVal.boolV false, AbiVal.boolV false, AbiVal.uintV n_tokens,
       AbiVal.addrV receiver, AbiVal.boolV true, AbiVal.bytesV route]
  else
    Except.error ("Unsupported function signature: " ++ function_signature)

/-- The transaction request assembled at the end of `process_swap`. -/
structure TxRequest where
  toAddr : Nat
  fromAddr : Nat
  value : Nat
  input : List Nat
deriving DecidableEq

/-- The encoding stage of `process_swap` after the external route
encoder returned (stream_handler.rs lines 75-168): dispatch on the
signature, build the swap calldata, build the approve calldata, bundle
both, and assemble the transaction request.  The fixed gateway and
wallet addresses live in the `consts` module, which is not part of the
published sources; they are passed in as `our_contract` and `wallet`. -/
def buildSwapTx (encoded : EncodedSolution)
    (sender sell_token buy_token amount_in amount_out : Nat)
    (our_contract wallet : Nat) : Except String TxRequest :=
  let min_out := min_amount_out amount_out
  match method_calldata_tuple encoded.function_signature encoded.swaps
      encoded.n_tokens amount_in sell_token buy_token min_out sender with
  | Except.error e => Except.error e
  | Except.ok vals =>
    let method_calldata := abiEncodeVals vals
    let swap_calldata := Encoding.encode_input encoded.function_signature method_calldata
    let router := encoded.interacting_with
    let approve_args := abiEncodeVals [AbiVal.addrV router, AbiVal.uintV amount_in]
    let approve_calldata := Encoding.encode_input "approve(address,uint256)" approve_args
    match Encoding.create_multitrade_calldata sell_token router
        approve_calldata swap_calldata with
    | Except.error e => Except.error e
    | Except.ok encoded_data =>
      Except.ok { toAddr := our_contract, fromAddr := wallet, value := 0,
                  input := encoded_data }

end StreamHandler

/-! ## Embedding of src/main.rs -/

namespace MainLoop

/-- `encode_input` as duplicated in main.rs (lines 239-258). -/
def encode_input (selector : String) (encoded_args : List Nat) : List Nat :=
  let selector_bytes := (keccak256 (utf8Bytes selector)).take 4
  let call_data := selector_bytes
  let encoded_args' :=
    if 32 < encoded_args.length ∧ encoded_args.take 32 = dynHeader32 then
      encoded_args.drop 32
    else encoded_args
  call_data ++ encoded_args'

/-- `create_multitrade_calldata` as duplicated in main.rs (lines
260-300); it additionally computes a function selector by hand (lines
293-294) that is never used. -/
def create_multitrade_calldata (token_address executor_address : Nat)
    (approve_calldata swap_calldata : List Nat) : Except String (List Nat) :=
  let interactions : List Encoding.DataS :=
    [{ target := token_address, value := 0, callData := approve_calldata },
     { target := executor_address, value := 0, callData := swap_calldata }]
  let _function_selector :=
    (keccak256 (utf8Bytes "executeInteractions((address,uint256,bytes)[],address,uint8)")).take 4
  Except.ok (Encoding.encodeExecuteInteractionsCall interactions token_address 1)

/-- The `Solution` built inside the orchestrator event loop (main.rs
lines 197-207): the checked amount is the quoted output amount itself. -/
def mainLoopSolution (sender sell_token buy_token amount_in amount_out : Nat) :
    Solution :=
  { sender := sender
    receiver := sender
    given_token := sell_token
    given_amount := amount_in
    checked_token := buy_token
    exact_out := false
    checked_amount := amount_out
    swaps := [{ token_in := sell_token, token_out := buy_token,
                estimated_amount_in := amount_in }] }

end MainLoop

/-! ## Definitions taken from the specification text (for comparison) -/

/-- The strip behaviour claim C1 asserts, following the spec's words:
the leading 32 bytes are removed whenever they equal the offset-32
pattern, including when the argument is exactly 32 bytes long. -/
def claimedStripC1 (a : List Nat) : List Nat :=
  if a.take 32 = dynHeader32 then a.drop 32 else a

/-- Modelled from the spec: the generic slippage formula of 4.3,
`minimumAmount = quotedAmount * (10000 - slippageToleranceBps) / 10000`
with truncating natural division.  The code instantiates it at 500 bps
through `StreamHandler.min_amount_out`. -/
def minimumAmountBps (q t : Nat) : Nat :=
  q * (10000 - t) / 10000

/-! ## Auxiliary lemmas -/

theorem toBytesLE_length (k n : Nat) : (toBytesLE k n).length = k := by
  induction k generalizing n with
  | zero => rfl
  | succ k ih => simp [toBytesLE, ih]

theorem wordBytes_length (n : Nat) : (wordBytes n).length = 32 := by
  simp [wordBytes, toBytesLE_length]

theorem fromBytesBE_append_one (bs : List Nat) (b : Nat) :
    fromBytesBE (bs ++ [b]) = 256 * fromBytesBE bs + b := by
  simp [fromBytesBE, List.foldl_append]

theorem fromBytesBE_toBytesLE_reverse (k n : Nat) :
    fromBytesBE (toBytesLE k n).reverse = n % 256 ^ k := by
  induction k generalizing n with
  | zero => simp [toBytesLE, fromBytesBE, Nat.mod_one]
  | succ k ih =>
    have hmul : (256 : Nat) ^ (k + 1) = 256 ^ k * 256 := by
      rw [pow_succ]
    calc fromBytesBE (toBytesLE (k + 1) n).reverse
        = fromBytesBE ((toBytesLE k (n / 256)).reverse ++ [n % 256]) := by
          simp [toBytesLE]
      _ = 256 * (n / 256 % 256 ^ k) + n % 256 := by
          rw [fromBytesBE_append_one, ih]
      _ = n % 256 ^ (k + 1) := by
          rw [hmul, Nat.mul_comm (256 ^ k) 256, Nat.mod_mul]
          ring

theorem fromBytesBE_wordBytes (n : Nat) (h : n < 2 ^ 256) :
    fromBytesBE (wordBytes n) = n := by
  have h256 : (256 : Nat) ^ 32 = 2 ^ 256 := by norm_num
  rw [wordBytes, fromBytesBE_toBytesLE_reverse, h256, Nat.mod_eq_of_lt h]

theorem keccak256_length (msg : List Nat) : (keccak256 msg).length = 32 := by
  simp [keccak256, toBytesLE_length]

theorem computeSelector_length (s : String) : (computeSelector s).length = 4 := by
  simp [computeSelector, keccak256_length]
theorem min_amount_out_eq_bps (q : Nat) :
    StreamHandler.min_amount_out q = q * (10000 - 500) / 10000 := by
  show q * (100 - 5) / 100 = q * (10000 - 500) / 10000
  have h : q * (10000 - 500) = q * (100 - 5) * 100 := by norm_num; ring
  rw [h, show (10000 : Nat) = 100 * 100 by norm_num,
    Nat.mul_div_mul_right _ _ (by norm_num : (0 : Nat) < 100)]

/-! ## Claim C1 -/

/-- C1 (counterexample): at argument bytes equal to exactly the 32-byte
offset pattern, `encode_input` keeps all 32 bytes, while the claim says
the header is stripped even when the argument is exactly 32 bytes. -/
theorem C1_counterexample :
    Encoding.encode_input "transfer(address,uint256)" dynHeader32 ≠
      computeSelector "transfer(address,uint256)" ++ claimedStripC1 dynHeader32 := by
  intro h
  have hcond : ¬(32 < dynHeader32.length ∧ dynHeader32.take 32 = dynHeader32) := by
    decide
  have h1 : (Encoding.encode_input "transfer(address,uint256)" dynHeader32).length = 36 := by
    simp only [Encoding.encode_input, if_neg hcond, List.length_append,
      List.length_take, keccak256_length]
    decide
  have h2 : (computeSelector "transfer(address,uint256)" ++
      claimedStripC1 dynHeader32).length = 4 := by
    have hc2 : claimedStripC1 dynHeader32 = [] := by decide
    simp [hc2, computeSelector_length]
  have := congrArg List.length h
  rw [h1, h2] at this
  norm_num at this

/-- C1 (amended): `encode_input` returns the 4-byte selector of the
signature followed by the arguments, with the leading 32 bytes removed
exactly when the arguments are strictly longer than 32 bytes and start
with the offset-32 pattern. -/
theorem C1_encode_input_characterisation (s : String) (a : List Nat) :
    Encoding.encode_input s a = computeSelector s ++ stripDynHeader a := rfl

/-! ## Claim C2 -/

/-- C2 (counterexample): on an argument starting with two copies of the
offset pattern, stripping twice removes 64 bytes while stripping once
removes 32, so the strip is not idempotent on all inputs. -/
theorem C2_counterexample :
    stripDynHeader (stripDynHeader (dynHeader32 ++ dynHeader32 ++ [0])) ≠
      stripDynHeader (dynHeader32 ++ dynHeader32 ++ [0]) := by decide

/-- C2 (amended): the strip only triggers on the exact 32-byte offset-32
pattern (with data following it), and applying it twice equals applying
it once for every argument that does not start with two copies of the
pattern followed by more data. -/
theorem C2_strip_conditional_idem (a : List Nat)
    (h : ¬(64 < a.length ∧ a.take 64 = dynHeader32 ++ dynHeader32)) :
    stripDynHeader (stripDynHeader a) = stripDynHeader a ∧
    (stripDynHeader a ≠ a → 32 < a.length ∧ a.take 32 = dynHeader32) := by
  by_cases hc : 32 < a.length ∧ a.take 32 = dynHeader32
  · have hstrip : stripDynHeader a = a.drop 32 := by
      simp [stripDynHeader, hc]
    constructor
    · rw [hstrip]
      have hnot : ¬(32 < (a.drop 32).length ∧ (a.drop 32).take 32 = dynHeader32) := by
        rintro ⟨hlen, htake⟩
        apply h
        constructor
        · simp [List.length_drop] at hlen ⊢
          omega
        · have : a.take 64 = a.take 32 ++ (a.drop 32).take 32 := by
            rw [← List.take_add]
          rw [this, hc.2, htake]
      simp only [stripDynHeader, if_neg hnot]
    · intro _
      exact hc
  · have hstrip : stripDynHeader a = a := by
      simp only [stripDynHeader, if_neg hc]
    constructor
    · rw [hstrip, hstrip]
    · intro hne
      exact absurd hstrip hne

/-- Witness for C2: a 33-byte argument headed by one copy of the pattern
satisfies the hypothesis and the strip is idempotent there. -/
theorem C2_strip_conditional_idem_witness :
    ¬(64 < (dynHeader32 ++ [5]).length ∧
       (dynHeader32 ++ [5]).take 64 = dynHeader32 ++ dynHeader32) ∧
    stripDynHeader (stripDynHeader (dynHeader32 ++ [5])) =
      stripDynHeader (dynHeader32 ++ [5]) :=
  ⟨by decide, (C2_strip_conditional_idem (dynHeader32 ++ [5]) (by decide)).1⟩

/-! ## Claim C4 -/

/-- C4: the minimum acceptable amount of `process_swap` equals
`quoted * (10000 - 500) / 10000` with truncating integer arithmetic,
and at the quoted amount 50,000,000 it is 47,500,000. -/
theorem C4_min_amount_out (q : Nat) :
    StreamHandler.min_amount_out q = q * (10000 - 500) / 10000 ∧
    StreamHandler.min_amount_out 50000000 = 47500000 :=
  ⟨min_amount_out_eq_bps q, by decide⟩

/-! ## Claim C7 -/

/-- C7 (counterexample): `process_swap` applies no positivity check to
its input amount — with input amount 0 the constructed Solution has
given amount 0, not strictly positive. -/
theorem C7_counterexample :
    ¬ 0 < (StreamHandler.processSwapSolution 1 2 3 0 100).given_amount := by
  decide

/-- C7 (amended): every Solution built by the pipeline has its checked
amount bounded by the quoted amount, and its given amount is the input
amount, hence strictly positive whenever the input amount is. -/
theorem C7_solution_invariant (sender st bt aIn aOut : Nat) :
    ((StreamHandler.processSwapSolution sender st bt aIn aOut).checked_amount ≤ aOut ∧
      (0 < aIn → 0 < (StreamHandler.processSwapSolution sender st bt aIn aOut).given_amount)) ∧
    ((MainLoop.mainLoopSolution sender st bt aIn aOut).checked_amount ≤ aOut ∧
      (0 < aIn → 0 < (MainLoop.mainLoopSolution sender st bt aIn aOut).given_amount)) := by
  refine ⟨⟨?_, fun h => h⟩, ⟨le_refl _, fun h => h⟩⟩
  show StreamHandler.min_amount_out aOut ≤ aOut
  rw [min_amount_out_eq_bps]
  calc aOut * (10000 - 500) / 10000 ≤ aOut * 10000 / 10000 := by
        gcongr
        omega
    _ = aOut := Nat.mul_div_cancel aOut (by norm_num)

/-- Witness for C7: with input amount 1 and quote 100 both hypotheses
hold and the given amount is positive. -/
theorem C7_solution_invariant_witness :
    0 < 1 ∧ 0 < (StreamHandler.processSwapSolution 9 8 7 1 100).given_amount :=
  ⟨by decide, (C7_solution_invariant 9 8 7 1 100).1.2 (by decide)⟩

/-! ## Claim C8 -/

/-- C8: for tolerances below 10000 bps the generic slippage formula
never exceeds the quote and decreases as the tolerance grows; the code's
`min_amount_out` is its instance at 500 bps. -/
theorem C8_slippage_bound_monotone (q t t' : Nat) (h : t ≤ t') (_hub : t' < 10000) :
    minimumAmountBps q t ≤ q ∧
    minimumAmountBps q t' ≤ minimumAmountBps q t ∧
    StreamHandler.min_amount_out q = minimumAmountBps q 500 := by
  refine ⟨?_, ?_, min_amount_out_eq_bps q⟩
  · show q * (10000 - t) / 10000 ≤ q
    calc q * (10000 - t) / 10000 ≤ q * 10000 / 10000 := by
          gcongr
          omega
      _ = q := Nat.mul_div_cancel q (by norm_num)
  · show q * (10000 - t') / 10000 ≤ q * (10000 - t) / 10000
    gcongr


/-- Witness for C8 at quote 1000, tolerances 200 ≤ 700. -/
theorem C8_slippage_bound_monotone_witness :
    (200 ≤ 700 ∧ 700 < 10000) ∧
    minimumAmountBps 1000 200 ≤ 1000 ∧
    minimumAmountBps 1000 700 ≤ minimumAmountBps 1000 200 :=
  ⟨⟨by decide, by decide⟩,
   (C8_slippage_bound_monotone 1000 200 700 (by decide) (by decide)).1,
   (C8_slippage_bound_monotone 1000 200 700 (by decide) (by decide)).2.1⟩

/-! ## Claim C9 -/

/-- C9: in the orchestrator event loop the Solution's checked amount is
the quoted output amount itself — no slippage reduction on that path. -/
theorem C9_main_loop_checked_is_quote (sender st bt aIn aOut : Nat) :
    (MainLoop.mainLoopSolution sender st bt aIn aOut).checked_amount = aOut :=
  rfl

/-! ## Claim C10 -/

/-- C10: the duplicated helpers of main.rs agree extensionally with
those of encoding.rs on every input. -/
theorem C10_duplicates_agree :
    (∀ (s : String) (a : List Nat),
      MainLoop.encode_input s a = Encoding.encode_input s a) ∧
    (∀ (t e : Nat) (ap sw : List Nat),
      MainLoop.create_multitrade_calldata t e ap sw =
        Encoding.create_multitrade_calldata t e ap sw) :=
  ⟨fun _ _ => rfl, fun _ _ _ _ => rfl⟩

/-! ## Claim C5 -/

/-- C5: for each recognized signature shape the dispatcher serialises
exactly the field count and order of the spec's table — the 9-tuple for
single and sequential swaps, the 10-tuple with the token count between
the unwrap flag and the receiver for split swaps; wrap and unwrap are
always false and transfer-from always true. -/
theorem C5_method_tuple_shapes (fsig : String) (route : List Nat)
    (n_tokens g gt ct m r : Nat) :
    (strContains fsig "singleSwap" = true →
      StreamHandler.method_calldata_tuple fsig route n_tokens g gt ct m r =
        Except.ok
          [AbiVal.uintV g, AbiVal.addrV gt, AbiVal.addrV ct, AbiVal.uintV m,
           AbiVal.boolV false, AbiVal.boolV false, AbiVal.addrV r,
           AbiVal.boolV true, AbiVal.bytesV route]) ∧
    (strContains fsig "sequentialSwap" = true →
      StreamHandler.method_calldata_tuple fsig route n_tokens g gt ct m r =
        Except.ok
          [AbiVal.uintV g, AbiVal.addrV gt, AbiVal.addrV ct, AbiVal.uintV m,
           AbiVal.boolV false, AbiVal.boolV false, AbiVal.addrV r,
           AbiVal.boolV true, AbiVal.bytesV route]) ∧
    (strContains fsig "splitSwap" = true →
      strContains fsig "singleSwap" = false →
      strContains fsig "sequentialSwap" = false →
      StreamHandler.method_calldata_tuple fsig route n_tokens g gt ct m r =
        Except.ok
          [AbiVal.uintV g, AbiVal.addrV gt, AbiVal.addrV ct, AbiVal.uintV m,
           AbiVal.boolV false, AbiVal.boolV false, AbiVal.uintV n_tokens,
           AbiVal.addrV r, AbiVal.boolV true, AbiVal.bytesV route]) := by
  refine ⟨fun h1 => ?_, fun h2 => ?_, fun h3 hn1 hn2 => ?_⟩
  · simp [StreamHandler.method_calldata_tuple, h1]
  · by_cases h1 : strContains fsig "singleSwap" <;>
      simp [StreamHandler.method_calldata_tuple, h1, h2]
  · simp [StreamHandler.method_calldata_tuple, hn1, hn2, h3]

/-- Witness for C5: one concrete signature per shape. -/
theorem C5_method_tuple_shapes_witness :
    StreamHandler.method_calldata_tuple "singleSwap(bytes)" [9] 4 1 2 3 5 6 =
      Except.ok
        [AbiVal.uintV 1, AbiVal.addrV 2, AbiVal.addrV 3, AbiVal.uintV 5,
         AbiVal.boolV false, AbiVal.boolV false, AbiVal.addrV 6,
         AbiVal.boolV true, AbiVal.bytesV [9]] ∧
    StreamHandler.method_calldata_tuple "sequentialSwap(bytes)" [9] 4 1 2 3 5 6 =
      Except.ok
        [AbiVal.uintV 1, AbiVal.addrV 2, AbiVal.addrV 3, AbiVal.uintV 5,
         AbiVal.boolV false, AbiVal.boolV false, AbiVal.addrV 6,
         AbiVal.boolV true, AbiVal.bytesV [9]] ∧
    StreamHandler.method_calldata_tuple "splitSwap(bytes)" [9] 4 1 2 3 5 6 =
      Except.ok
        [AbiVal.uintV 1, AbiVal.addrV 2, AbiVal.addrV 3, AbiVal.uintV 5,
         AbiVal.boolV false, AbiVal.boolV false, AbiVal.uintV 4,
         AbiVal.addrV 6, AbiVal.boolV true, AbiVal.bytesV [9]] :=
  ⟨(C5_method_tuple_shapes "singleSwap(bytes)" [9] 4 1 2 3 5 6).1 (by decide),
   (C5_method_tuple_shapes "sequentialSwap(bytes)" [9] 4 1 2 3 5 6).2.1 (by decide),
   (C5_method_tuple_shapes "splitSwap(bytes)" [9] 4 1 2 3 5 6).2.2
     (by decide) (by decide) (by decide)⟩

/-! ## Claim C6 -/

/-- C6: a function signature containing none of the three recognized
shape substrings makes the encoding stage return an error, and no
transaction request is produced for that trade. -/
theorem C6_unrecognized_signature_error (enc : EncodedSolution)
    (sender st bt aIn aOut oc w : Nat)
    (h1 : strContains enc.function_signature "singleSwap" = false)
    (h2 : strContains enc.function_signature "sequentialSwap" = false)
    (h3 : strContains enc.function_signature "splitSwap" = false) :
    StreamHandler.buildSwapTx enc sender st bt aIn aOut oc w =
      Except.error ("Unsupported function signature: " ++ enc.function_signature) ∧
    ∀ tx, StreamHandler.buildSwapTx enc sender st bt aIn aOut oc w ≠ Except.ok tx := by
  have herr : StreamHandler.method_calldata_tuple enc.function_signature
      enc.swaps enc.n_tokens aIn st bt (StreamHandler.min_amount_out aOut) sender =
      Except.error ("Unsupported function signature: " ++ enc.function_signature) := by
    simp [StreamHandler.method_calldata_tuple, h1, h2, h3]
  constructor
  · simp [StreamHandler.buildSwapTx, herr]
  · intro tx
    simp [StreamHandler.buildSwapTx, herr]

/-- Witness for C6: a concrete unrecognized signature. -/
theorem C6_unrecognized_signature_error_witness :
    StreamHandler.buildSwapTx
      { function_signature := "fooBar(uint256)", interacting_with := 1,
        swaps := [2], n_tokens := 0 } 3 4 5 6 7 8 9 =
      Except.error "Unsupported function signature: fooBar(uint256)" :=
  (C6_unrecognized_signature_error
    { function_signature := "fooBar(uint256)", interacting_with := 1,
      swaps := [2], n_tokens := 0 } 3 4 5 6 7 8 9
    (by decide) (by decide) (by decide)).1

/-! ## Reading back the bundle encoding (towards claim C3) -/

theorem dropTake_at (pre mid rest : List Nat) (p n : Nat)
    (hp : pre.length = p) (hn : mid.length = n) :
    ((pre ++ (mid ++ rest)).drop p).take n = mid := by
  rw [List.drop_left' hp, List.take_left' hn]

theorem readWord_at (pre rest : List Nat) (p n : Nat)
    (hp : pre.length = p) (hn : n < 2 ^ 256) :
    readWord (pre ++ (wordBytes n ++ rest)) p = n := by
  unfold readWord
  rw [dropTake_at pre (wordBytes n) rest p 32 hp (wordBytes_length n),
    fromBytesBE_wordBytes n hn]

theorem encDataTail_length (d : Encoding.DataS) :
    (Encoding.encDataTail d).length =
      128 + d.callData.length + (32 - d.callData.length % 32) % 32 := by
  simp only [Encoding.encDataTail, Encoding.zeroPad, List.length_append,
    wordBytes_length, List.length_replicate]

theorem decodeData_at (pre rest : List Nat) (d : Encoding.DataS) (p : Nat)
    (hp : pre.length = p) (ht : d.target < 2 ^ 256) (hv : d.value < 2 ^ 256)
    (hl : d.callData.length < 2 ^ 256) :
    decodeData (pre ++ (Encoding.encDataTail d ++ rest)) p =
      (d.target, d.value, d.callData) := by
  set bs := pre ++ (Encoding.encDataTail d ++ rest) with hbs
  have e1 : bs = pre ++ (wordBytes d.target ++ (wordBytes d.value ++
      (wordBytes 96 ++ (wordBytes d.callData.length ++ (d.callData ++
        (Encoding.zeroPad d.callData.length ++ rest)))))) := by
    simp [hbs, Encoding.encDataTail, List.append_assoc]
  have e2 : bs = (pre ++ wordBytes d.target) ++ (wordBytes d.value ++
      (wordBytes 96 ++ (wordBytes d.callData.length ++ (d.callData ++
        (Encoding.zeroPad d.callData.length ++ rest))))) := by
    simp [hbs, Encoding.encDataTail, List.append_assoc]
  have e3 : bs = (pre ++ wordBytes d.target ++ wordBytes d.value) ++
      (wordBytes 96 ++ (wordBytes d.callData.length ++ (d.callData ++
        (Encoding.zeroPad d.callData.length ++ rest)))) := by
    simp [hbs, Encoding.encDataTail, List.append_assoc]
  have e4 : bs = (pre ++ wordBytes d.target ++ wordBytes d.value ++ wordBytes 96) ++
      (wordBytes d.callData.length ++ (d.callData ++
        (Encoding.zeroPad d.callData.length ++ rest))) := by
    simp [hbs, Encoding.encDataTail, List.append_assoc]
  have e5 : bs = (pre ++ wordBytes d.target ++ wordBytes d.value ++ wordBytes 96 ++
      wordBytes d.callData.length) ++ (d.callData ++
        (Encoding.zeroPad d.callData.length ++ rest)) := by
    simp [hbs, Encoding.encDataTail, List.append_assoc]
  have h1 : readWord bs p = d.target := by
    rw [e1]; exact readWord_at _ _ _ _ hp ht
  have h2 : readWord bs (p + 32) = d.value := by
    rw [e2]
    refine readWord_at _ _ _ _ ?_ hv
    simp only [List.length_append, wordBytes_length, hp]
  have h3 : readWord bs (p + 64) = 96 := by
    rw [e3]
    refine readWord_at _ _ _ _ ?_ (by norm_num)
    simp only [List.length_append, wordBytes_length, hp]
  have h4 : readWord bs (p + 96) = d.callData.length := by
    rw [e4]
    refine readWord_at _ _ _ _ ?_ hl
    simp only [List.length_append, wordBytes_length, hp]
  have h5 : (bs.drop (p + 96 + 32)).take d.callData.length = d.callData := by
    rw [e5]
    refine dropTake_at _ _ _ _ _ ?_ rfl
    simp only [List.length_append, wordBytes_length, hp]
  simp only [decodeData]
  rw [h3, h4, h1, h2, h5]

theorem readWord_here (rest : List Nat) (n : Nat) (hn : n < 2 ^ 256) :
    readWord (wordBytes n ++ rest) 0 = n := by
  unfold readWord
  rw [List.drop_zero, List.take_left' (wordBytes_length n), fromBytesBE_wordBytes n hn]

theorem decodeData_at_end (pre : List Nat) (d : Encoding.DataS) (p : Nat)
    (hp : pre.length = p) (ht : d.target < 2 ^ 256) (hv : d.value < 2 ^ 256)
    (hl : d.callData.length < 2 ^ 256) :
    decodeData (pre ++ Encoding.encDataTail d) p =
      (d.target, d.value, d.callData) := by
  set bs := pre ++ Encoding.encDataTail d with hbs
  have e1 : bs = pre ++ (wordBytes d.target ++ (wordBytes d.value ++
      (wordBytes 96 ++ (wordBytes d.callData.length ++ (d.callData ++
        Encoding.zeroPad d.callData.length))))) := by
    simp [hbs, Encoding.encDataTail, List.append_assoc]
  have e2 : bs = (pre ++ wordBytes d.target) ++ (wordBytes d.value ++
      (wordBytes 96 ++ (wordBytes d.callData.length ++ (d.callData ++
        Encoding.zeroPad d.callData.length)))) := by
    simp [hbs, Encoding.encDataTail, List.append_assoc]
  have e3 : bs = (pre ++ wordBytes d.target ++ wordBytes d.value) ++
      (wordBytes 96 ++ (wordBytes d.callData.length ++ (d.callData ++
        Encoding.zeroPad d.callData.length))) := by
    simp [hbs, Encoding.encDataTail, List.append_assoc]
  have e4 : bs = (pre ++ wordBytes d.target ++ wordBytes d.value ++ wordBytes 96) ++
      (wordBytes d.callData.length ++ (d.callData ++
        Encoding.zeroPad d.callData.length)) := by
    simp [hbs, Encoding.encDataTail, List.append_assoc]
  have e5 : bs = (pre ++ wordBytes d.target ++ wordBytes d.value ++ wordBytes 96 ++
      wordBytes d.callData.length) ++ (d.callData ++
        Encoding.zeroPad d.callData.length) := by
    simp [hbs, Encoding.encDataTail, List.append_assoc]
  have h1 : readWord bs p = d.target := by
    rw [e1]; exact readWord_at _ _ _ _ hp ht
  have h2 : readWord bs (p + 32) = d.value := by
    rw [e2]
    refine readWord_at _ _ _ _ ?_ hv
    simp only [List.length_append, wordBytes_length, hp]
  have h3 : readWord bs (p + 64) = 96 := by
    rw [e3]
    refine readWord_at _ _ _ _ ?_ (by norm_num)
    simp only [List.length_append, wordBytes_length, hp]
  have h4 : readWord bs (p + 96) = d.callData.length := by
    rw [e4]
    refine readWord_at _ _ _ _ ?_ hl
    simp only [List.length_append, wordBytes_length, hp]
  have h5 : (bs.drop (p + 96 + 32)).take d.callData.length = d.callData := by
    rw [e5]
    refine dropTake_at _ _ _ _ _ ?_ rfl
    simp only [List.length_append, wordBytes_length, hp]
  simp only [decodeData]
  rw [h3, h4, h1, h2, h5]

theorem decodeMultitrade_encoded (d0 d1 : Encoding.DataS) (tok mode : Nat)
    (h0t : d0.target < 2 ^ 256) (h0v : d0.value < 2 ^ 256)
    (h0l : d0.callData.length < 2 ^ 256)
    (h1t : d1.target < 2 ^ 256) (h1v : d1.value < 2 ^ 256)
    (h1l : d1.callData.length < 2 ^ 256)
    (htok : tok < 2 ^ 256) (hmode : mode < 2 ^ 256)
    (hoff : 64 + (Encoding.encDataTail d0).length < 2 ^ 256) :
    decodeMultitradeArgs (wordBytes 96 ++ wordBytes tok ++ wordBytes mode ++
        Encoding.encDataArray [d0, d1]) =
      some ([(d0.target, d0.value, d0.callData),
             (d1.target, d1.value, d1.callData)], tok, mode) := by
  set bs := wordBytes 96 ++ wordBytes tok ++ wordBytes mode ++
    Encoding.encDataArray [d0, d1] with hbs
  have e1 : bs = wordBytes 96 ++ (wordBytes tok ++ (wordBytes mode ++
      (wordBytes 2 ++ (wordBytes 64 ++ (wordBytes (64 + (Encoding.encDataTail d0).length) ++
        (Encoding.encDataTail d0 ++ Encoding.encDataTail d1)))))) := by
    simp [hbs, Encoding.encDataArray, Encoding.offsWords, List.append_assoc]
  have e2 : bs = (wordBytes 96 ++ wordBytes tok) ++ (wordBytes mode ++
      (wordBytes 2 ++ (wordBytes 64 ++ (wordBytes (64 + (Encoding.encDataTail d0).length) ++
        (Encoding.encDataTail d0 ++ Encoding.encDataTail d1))))) := by
    simp [hbs, Encoding.encDataArray, Encoding.offsWords, List.append_assoc]
  have e3 : bs = (wordBytes 96 ++ wordBytes tok ++ wordBytes mode) ++
      (wordBytes 2 ++ (wordBytes 64 ++ (wordBytes (64 + (Encoding.encDataTail d0).length) ++
        (Encoding.encDataTail d0 ++ Encoding.encDataTail d1)))) := by
    simp [hbs, Encoding.encDataArray, Encoding.offsWords, List.append_assoc]
  have e4 : bs = (wordBytes 96 ++ wordBytes tok ++ wordBytes mode ++ wordBytes 2) ++
      (wordBytes 64 ++ (wordBytes (64 + (Encoding.encDataTail d0).length) ++
        (Encoding.encDataTail d0 ++ Encoding.encDataTail d1))) := by
    simp [hbs, Encoding.encDataArray, Encoding.offsWords, List.append_assoc]
  have e5 : bs = (wordBytes 96 ++ wordBytes tok ++ wordBytes mode ++ wordBytes 2 ++
      wordBytes 64) ++ (wordBytes (64 + (Encoding.encDataTail d0).length) ++
        (Encoding.encDataTail d0 ++ Encoding.encDataTail d1)) := by
    simp [hbs, Encoding.encDataArray, Encoding.offsWords, List.append_assoc]
  have e6 : bs = (wordBytes 96 ++ wordBytes tok ++ wordBytes mode ++ wordBytes 2 ++
      wordBytes 64 ++ wordBytes (64 + (Encoding.encDataTail d0).length)) ++
        (Encoding.encDataTail d0 ++ Encoding.encDataTail d1) := by
    simp [hbs, Encoding.encDataArray, Encoding.offsWords, List.append_assoc]
  have e7 : bs = (wordBytes 96 ++ wordBytes tok ++ wordBytes mode ++ wordBytes 2 ++
      wordBytes 64 ++ wordBytes (64 + (Encoding.encDataTail d0).length) ++
        Encoding.encDataTail d0) ++ Encoding.encDataTail d1 := by
    simp [hbs, Encoding.encDataArray, Encoding.offsWords, List.append_assoc]
  have h_aoff : readWord bs 0 = 96 := by
    rw [e1]; exact readWord_here _ _ (by norm_num)
  have h_tok : readWord bs 32 = tok := by
    rw [e1]
    refine readWord_at _ _ _ _ ?_ htok
    simp only [wordBytes_length]
  have h_mode : readWord bs 64 = mode := by
    rw [e2]
    refine readWord_at _ _ _ _ ?_ hmode
    simp only [List.length_append, wordBytes_length]
  have h_n : readWord bs 96 = 2 := by
    rw [e3]
    refine readWord_at _ _ _ _ ?_ (by norm_num)
    simp only [List.length_append, wordBytes_length]
  have h_o0 : readWord bs (96 + 32) = 64 := by
    rw [e4]
    refine readWord_at _ _ _ _ ?_ (by norm_num)
    simp only [List.length_append, wordBytes_length]
  have h_o1 : readWord bs (96 + 32 + 32) = 64 + (Encoding.encDataTail d0).length := by
    rw [e5]
    refine readWord_at _ _ _ _ ?_ hoff
    simp only [List.length_append, wordBytes_length]
  have h_d0 : decodeData bs (96 + 32 + 64) =
      (d0.target, d0.value, d0.callData) := by
    rw [e6]
    refine decodeData_at _ _ _ _ ?_ h0t h0v h0l
    simp only [List.length_append, wordBytes_length]
  have h_d1 : decodeData bs (96 + 32 + (64 + (Encoding.encDataTail d0).length)) =
      (d1.target, d1.value, d1.callData) := by
    rw [e7]
    refine decodeData_at_end _ _ _ ?_ h1t h1v h1l
    simp only [List.length_append, wordBytes_length]
    omega
  simp only [decodeMultitradeArgs]
  rw [h_aoff, h_tok, h_mode, h_n, h_o0, h_o1, h_d0, h_d1]
  simp

/-! ## Claim C3 -/

/-- C3: for all token and executor addresses and arbitrary (including
empty) approve and swap payloads, the bundle produced by
`create_multitrade_calldata` carries the 4-byte selector of the gateway
function computed as in 4.1, and its argument area decodes to exactly
two interactions — `(tokenAddress, 0, approvePayload)` then
`(executorAddress, 0, swapPayload)` — with the address argument equal to
the token address and the mode argument equal to 1. -/
theorem C3_bundle_roundtrip (t e : Nat) (a s : List Nat)
    (ht : t < 2 ^ 160) (he : e < 2 ^ 160)
    (ha : a.length < 2 ^ 64) (hs : s.length < 2 ^ 64) :
    ∃ out, Encoding.create_multitrade_calldata t e a s = Except.ok out ∧
      out.take 4 = computeSelector Encoding.executeInteractionsSig ∧
      decodeMultitradeArgs (out.drop 4) =
        some ([(t, 0, a), (e, 0, s)], t, 1) := by
  have hbig : (2 : Nat) ^ 160 < 2 ^ 256 := by norm_num
  have h64 : (2 : Nat) ^ 64 < 2 ^ 256 := by norm_num
  refine ⟨Encoding.encodeExecuteInteractionsCall
      [{ target := t, value := 0, callData := a },
       { target := e, value := 0, callData := s }] t 1, rfl, ?_, ?_⟩
  · exact List.take_left' (computeSelector_length _)
  · have hdrop : (Encoding.encodeExecuteInteractionsCall
        [{ target := t, value := 0, callData := a },
         { target := e, value := 0, callData := s }] t 1).drop 4 =
        wordBytes 96 ++ wordBytes t ++ wordBytes 1 ++
          Encoding.encDataArray
            [{ target := t, value := 0, callData := a },
             { target := e, value := 0, callData := s }] :=
      List.drop_left' (computeSelector_length _)
    rw [hdrop]
    have hlen0 : (Encoding.encDataTail
        { target := t, value := 0, callData := a }).length =
        128 + a.length + (32 - a.length % 32) % 32 := by
      simp [encDataTail_length]
    refine decodeMultitrade_encoded _ _ _ _ ?_ ?_ ?_ ?_ ?_ ?_ ?_ ?_ ?_
    · exact lt_trans ht hbig
    · norm_num
    · exact lt_trans ha h64
    · exact lt_trans he hbig
    · norm_num
    · exact lt_trans hs h64
    · exact lt_trans ht hbig
    · norm_num
    · rw [hlen0]
      have hpad : (32 - a.length % 32) % 32 < 32 := Nat.mod_lt _ (by norm_num)
      omega

/-- Witness for C3 at token address 5, executor address 6, a one-byte
approve payload and an empty swap payload. -/
theorem C3_bundle_roundtrip_witness :
    ((5 : Nat) < 2 ^ 160 ∧ (6 : Nat) < 2 ^ 160 ∧
      ([7] : List Nat).length < 2 ^ 64 ∧ ([] : List Nat).length < 2 ^ 64) ∧
    ∃ out, Encoding.create_multitrade_calldata 5 6 [7] [] = Except.ok out ∧
      out.take 4 = computeSelector Encoding.executeInteractionsSig ∧
      decodeMultitradeArgs (out.drop 4) =
        some ([(5, 0, [7]), (6, 0, [])], 5, 1) :=
  ⟨⟨by norm_num, by norm_num, by norm_num, by norm_num⟩,
   C3_bundle_roundtrip 5 6 [7] []
     (by norm_num) (by norm_num) (by norm_num) (by norm_num)⟩
